import Mathlib

/-!
Verification model of the sewer ACME client.

Shallow embedding of `sewer/ACMEclient.py` and `sewer/dns_providers/common.py`.
Bytes are modelled as `List Nat`, byte strings at the Python level as `String`.
External collaborators (the `hashlib` SHA-256 digest, the OpenSSL signer and
the network) are passed in as explicit function parameters or oracles, exactly
at the call boundary the Python code uses them.
-/

/-! ## Base64 (Python `base64.urlsafe_b64encode` / `base64.b64encode`) -/

/-- The base64 alphabet; the last two characters distinguish the standard
(`+`, `/`) from the URL-safe (`-`, `_`) variant. -/
def b64Alphabet (c62 c63 : Char) : List Char :=
  ['A', 'B', 'C', 'D', 'E', 'F', 'G', 'H', 'I', 'J', 'K', 'L', 'M',
   'N', 'O', 'P', 'Q', 'R', 'S', 'T', 'U', 'V', 'W', 'X', 'Y', 'Z',
   'a', 'b', 'c', 'd', 'e', 'f', 'g', 'h', 'i', 'j', 'k', 'l', 'm',
   'n', 'o', 'p', 'q', 'r', 's', 't', 'u', 'v', 'w', 'x', 'y', 'z',
   '0', '1', '2', '3', '4', '5', '6', '7', '8', '9', c62, c63]

def sextetChar (c62 c63 : Char) (n : Nat) : Char :=
  (b64Alphabet c62 c63).getD n 'A'

/-- Base64 of a byte list: groups of three bytes become four alphabet
characters; a final group of one or two bytes is padded with `=`. -/
def b64Chunks (c62 c63 : Char) : List Nat → List Char
  | [] => []
  | [b1] =>
    [sextetChar c62 c63 (b1 / 4), sextetChar c62 c63 (b1 % 4 * 16), '=', '=']
  | [b1, b2] =>
    [sextetChar c62 c63 (b1 / 4), sextetChar c62 c63 (b1 % 4 * 16 + b2 / 16),
     sextetChar c62 c63 (b2 % 16 * 4), '=']
  | b1 :: b2 :: b3 :: rest =>
    sextetChar c62 c63 (b1 / 4) :: sextetChar c62 c63 (b1 % 4 * 16 + b2 / 16) ::
    sextetChar c62 c63 (b2 % 16 * 4 + b3 / 64) :: sextetChar c62 c63 (b3 % 64) ::
    b64Chunks c62 c63 rest

/-- `base64.urlsafe_b64encode` (with `=` padding kept). -/
def urlsafe_b64encode (bs : List Nat) : List Char := b64Chunks '-' '_' bs

/-- `base64.b64encode` (standard alphabet, `=` padding kept). -/
def b64encode (bs : List Nat) : List Char := b64Chunks '+' '/' bs

/-- Python `str.rstrip` restricted to one strip character. -/
def rstripChar (c : Char) (l : List Char) : List Char :=
  (l.reverse.dropWhile (fun x => x = c)).reverse

/-- `ACMEclient.calculate_safe_base64`: URL-safe base64 of the bytes with the
trailing `=` padding removed. -/
def calculate_safe_base64 (bs : List Nat) : String :=
  String.mk (rstripChar '=' (urlsafe_b64encode bs))

/-! ## Hex formatting (Python `"{0:x}".format` and `binascii.unhexlify`) -/

/-- Python `"{0:x}".format n`: lowercase hex without leading zeros
(`"0"` for zero).  `Nat.digitChar` maps 0-15 to `0`-`9`, `a`-`f`. -/
def hexRepr (n : Nat) : List Char :=
  if n < 16 then [Nat.digitChar n]
  else hexRepr (n / 16) ++ [Nat.digitChar (n % 16)]
decreasing_by exact Nat.div_lt_self (by omega) (by norm_num)

/-- The exponent line of `get_acme_header`: prepend `0` when the hex
representation has odd length (`"0{0}".format(exponent) if len(exponent) % 2`). -/
def evenHex (n : Nat) : List Char :=
  let h := hexRepr n
  if h.length % 2 = 1 then '0' :: h else h

def hexVal (c : Char) : Option Nat :=
  if '0' ≤ c ∧ c ≤ '9' then some (c.toNat - 48)
  else if 'a' ≤ c ∧ c ≤ 'f' then some (c.toNat - 87)
  else if 'A' ≤ c ∧ c ≤ 'F' then some (c.toNat - 55)
  else none

/-- `binascii.unhexlify`: two hex characters per byte; odd length or a
non-hex character raises (modelled as `none`). -/
def unhexlify : List Char → Option (List Nat)
  | [] => some []
  | [_] => none
  | c1 :: c2 :: rest =>
    match hexVal c1, hexVal c2, unhexlify rest with
    | some h, some l, some bs => some ((16 * h + l) :: bs)
    | _, _, _ => none

/-- The minimal big-endian base-256 representation of a natural number
(no leading zero byte; empty for zero).  Reference definition used to state
what the source's hex/unhexlify pipeline produces. -/
def minBE (n : Nat) : List Nat :=
  if n = 0 then [] else minBE (n / 256) ++ [n % 256]
decreasing_by exact Nat.div_lt_self (by omega) (by norm_num)

/-- Big-endian value of a byte list. -/
def beVal (bs : List Nat) : Nat := bs.foldl (fun a b => 256 * a + b) 0

/-- `ACMEclient.get_acme_header`, restricted to the part the claims are
about: from the public numbers `e` and `n` of the account key it builds the
`jwk` values.  The exponent hex is padded to even length, the modulus hex is
used as formatted (the source does not pad it); `binascii.unhexlify` of an
odd-length string raises, modelled by `none`. -/
def get_acme_header (e n : Nat) : Option (String × String) :=
  match unhexlify (evenHex e), unhexlify (hexRepr n) with
  | some eb, some nb => some (calculate_safe_base64 eb, calculate_safe_base64 nb)
  | _, _ => none

/-! ## JSON serialization (Python `json.dumps` on flat string dicts) -/

/-- `\uXXXX` escape (four lowercase hex digits); valid below `0x10000`,
which covers every character the client ever serializes. -/
def uEscape (n : Nat) : List Char :=
  ['\\', 'u', Nat.digitChar (n / 4096 % 16), Nat.digitChar (n / 256 % 16),
   Nat.digitChar (n / 16 % 16), Nat.digitChar (n % 16)]

/-- Python `json.dumps` character escaping with `ensure_ascii=True`:
everything outside space..tilde is escaped, as are `"` and `\`. -/
def jsonEscapeChar (c : Char) : List Char :=
  if c = '"' then ['\\', '"']
  else if c = '\\' then ['\\', '\\']
  else if c = '\n' then ['\\', 'n']
  else if c = '\r' then ['\\', 'r']
  else if c = '\t' then ['\\', 't']
  else if c.toNat = 8 then ['\\', 'b']
  else if c.toNat = 12 then ['\\', 'f']
  else if c.toNat < 32 ∨ 127 ≤ c.toNat then uEscape c.toNat
  else [c]

def escapeChars : List Char → List Char
  | [] => []
  | c :: rest => jsonEscapeChar c ++ escapeChars rest

/-- A JSON string literal: quoted, characters escaped. -/
def jsonStringLit (s : String) : String :=
  "\"" ++ String.mk (escapeChars s.data) ++ "\""

/-- Lexicographic order on strings by character code, as Python compares
`str` keys when `sort_keys=True`. -/
def charListLe : List Char → List Char → Bool
  | [], _ => true
  | _ :: _, [] => false
  | x :: xs, y :: ys =>
    if x.toNat < y.toNat then true
    else if y.toNat < x.toNat then false
    else charListLe xs ys

def strLe (a b : String) : Bool := charListLe a.data b.data

def insortByKey (p : String × String) : List (String × String) → List (String × String)
  | [] => [p]
  | q :: rest => if strLe p.1 q.1 then p :: q :: rest else q :: insortByKey p rest

/-- Stable sort of dict entries by key (`json.dumps(..., sort_keys=True)`). -/
def sortByKey : List (String × String) → List (String × String)
  | [] => []
  | p :: rest => insortByKey p (sortByKey rest)

def dumpsEntries (itemSep kvSep : String) : List (String × String) → String
  | [] => ""
  | [(k, v)] => jsonStringLit k ++ kvSep ++ jsonStringLit v
  | (k, v) :: q :: rest =>
    jsonStringLit k ++ kvSep ++ jsonStringLit v ++ itemSep ++
    dumpsEntries itemSep kvSep (q :: rest)

/-- `json.dumps` of a flat dict whose values are strings, with the given
separators. -/
def dumpsStrDict (itemSep kvSep : String) (d : List (String × String)) : String :=
  "\x7b" ++ dumpsEntries itemSep kvSep d ++ "\x7d"

/-- `json.dumps(d, sort_keys=True, separators=(",", ":"))`. -/
def dumpsSortedCompact (d : List (String × String)) : String :=
  dumpsStrDict "," ":" (sortByKey d)

/-! ## Key authorization (`ACMEclient.get_keyauthorization`) -/

/-- The canonical JWK JSON string the thumbprint is computed over:
`json.dumps(self.get_acme_header()['jwk'], sort_keys=True, separators=(',', ':'))`
with the dict built in insertion order `e`, `kty`, `n`. -/
def jwkJson (jwk_e jwk_n : String) : String :=
  dumpsSortedCompact [("e", jwk_e), ("kty", "RSA"), ("n", jwk_n)]

/-- `ACMEclient.get_keyauthorization`.  `sha256` stands for
`hashlib.sha256(x.encode('utf8')).digest()`; it is the one external
primitive in this function.  Returns
`(acme_keyauthorization, base64_of_acme_keyauthorization)`. -/
def get_keyauthorization (sha256 : String → List Nat) (jwk_e jwk_n : String)
    (dns_token : String) : String × String :=
  let acme_thumbprint := calculate_safe_base64 (sha256 (jwkJson jwk_e jwk_n))
  let acme_keyauthorization := dns_token ++ "." ++ acme_thumbprint
  (acme_keyauthorization, calculate_safe_base64 (sha256 acme_keyauthorization))

/-! ## Challenge selection -/

/-- One entry of the authorization's `challenges` list.  `ACMEclient` reads
the keys `type`, `token` and `uri`; `BaseAuthProvider` reads `type`, `token`
and `url`. -/
structure ChallengeEntry where
  type_ : String
  token : String
  uri : String
  url : String
deriving DecidableEq

/-- `ACMEclient.get_challenge`, challenge-selection part.  The `for` loop
assigns `dns_challenge = i` on every entry with `type == 'dns-01'` and never
breaks, so the last match wins; when no entry matches, the local stays
unbound and reading `dns_challenge['token']` raises `NameError`, modelled as
`none`. -/
def get_challenge (challenges : List ChallengeEntry) : Option (String × String) :=
  let dns_challenge :=
    challenges.foldl (fun acc i => if i.type_ = "dns-01" then some i else acc) none
  dns_challenge.map fun c => (c.token, c.uri)

/-- The authorization response as read by
`BaseAuthProvider.get_identifier_auth`: `identifier.value`, the optional
`wildcard` field and the `challenges` list. -/
structure AuthorizationResponse where
  identifierValue : String
  wildcard : Option Bool
  challenges : List ChallengeEntry
deriving DecidableEq

structure IdentifierAuth where
  domain : String
  url : String
  wildcard : Option Bool
  token : String
  challenge_url : String
deriving DecidableEq

/-- Python truthiness of the `wildcard` field (`None` and `False` are falsy). -/
def pyTruthy : Option Bool → Bool
  | some b => b
  | none => false

/-- `BaseAuthProvider.get_identifier_auth`.  The `for` loop returns inside
its body on the first entry whose `type` equals `auth_type`; falling off the
loop returns `None`. -/
def get_identifier_auth (auth_type : String) (resp : AuthorizationResponse)
    (url : String) : Option IdentifierAuth :=
  let domain0 := resp.identifierValue
  let domain := if pyTruthy resp.wildcard then "*." ++ domain0 else domain0
  (resp.challenges.find? fun i => i.type_ = auth_type).map fun challenge =>
    { domain := domain, url := url, wildcard := resp.wildcard,
      token := challenge.token, challenge_url := challenge.url }

/-! ## Challenge polling (`ACMEclient.check_challenge_status`) -/

/-- What one GET of the challenge URL produces: a transport-level exception,
a body whose JSON decode or `['status']` lookup raises, or a status string. -/
inductive ServerReply where
  | transportError
  | malformedJson
  | status (s : String)

/-- How the `while True` loop in `check_challenge_status` exits.  All four
exits `break` (or fall) out of the loop and return normally; only
`exitValid` first calls `delete_dns_record`. -/
inductive PollExit where
  | exitTransport
  | exitMalformed
  | exitMaxExceeded
  | exitValid
deriving DecidableEq

/-- The polling loop.  `remaining = maximum_number_of_checks_allowed -
number_of_checks`; the source's test `number_of_checks >
maximum_number_of_checks_allowed` (which raises `StopIteration`, caught by
the loop's own `except` clause, which breaks) fires exactly when `remaining`
is zero.  `gets` counts GET requests to the challenge URL; `server i` is the
outcome of the `i`-th GET.  Each iteration performs exactly one GET; a
transport error or malformed body hits the `except` clause and breaks;
`pending` (and any other non-`valid` status) continues the loop; `valid`
breaks after the provider delete. -/
def pollAux (server : Nat → ServerReply) : Nat → Nat → PollExit × Nat
  | remaining, gets =>
    match server gets with
    | .transportError => (.exitTransport, gets + 1)
    | .malformedJson => (.exitMalformed, gets + 1)
    | .status s =>
      match remaining with
      | 0 => (.exitMaxExceeded, gets + 1)
      | r + 1 =>
        if s = "valid" then (.exitValid, gets + 1)
        else pollAux server r (gets + 1)

/-- The result of `ACMEclient.check_challenge_status`: the loop exit, the
number of GET requests, the provider delete calls made inside the loop, and
whether the final `return check_challenge_status_response` line raised
`UnboundLocalError` because the local was never assigned. -/
structure ChallengeStatusResult where
  exit : PollExit
  gets : Nat
  deleteCalls : List (String × String)
  raisedUnboundLocal : Bool
deriving DecidableEq

/-- `ACMEclient.check_challenge_status`: runs the loop with
`maximum_number_of_checks_allowed = maxChecks` (15 in the source) and, on the
`valid` exit only, calls `self.dns_class.delete_dns_record(self.domain_name,
base64_of_acme_keyauthorization)` inside the loop.  The local
`check_challenge_status_response` is assigned only when a `requests.get`
returns, so it is bound at the `return` line iff at least one GET succeeded:
iteration `i` is reached only after `i` successful iterations, hence the
name is unbound exactly when the very first GET raises a transport error
(`exit = exitTransport` with one GET counted).  In that case the `return`
line raises `UnboundLocalError`; a malformed body on the first iteration
does not crash, because its own GET already bound the name.  On every other
exit the (possibly stale) last response is returned normally. -/
def check_challenge_status (server : Nat → ServerReply) (maxChecks : Nat)
    (domain_name value : String) : ChallengeStatusResult :=
  let r := pollAux server maxChecks 0
  { exit := r.1, gets := r.2,
    deleteCalls := if r.1 = PollExit.exitValid then [(domain_name, value)] else [],
    raisedUnboundLocal :=
      if r.1 = PollExit.exitTransport ∧ r.2 = 1 then true else false }

def pendingForever : Nat → ServerReply := fun _ => ServerReply.status ("pending")

/-! ## Certificate assembly (`ACMEclient.get_certicate`) -/

/-- `textwrap.wrap(s, 64)` on whitespace-free text (base64 output contains
no whitespace, so `wrap` just slices 64-character pieces; it returns `[]` on
the empty string). -/
def wrap64 (l : List Char) : List (List Char) :=
  if l = [] then [] else l.take 64 :: wrap64 (l.drop 64)
termination_by l.length
decreasing_by
  rename_i h
  have hl : 0 < l.length := List.length_pos.mpr h
  have hd : (l.drop 64).length = l.length - 64 := l.length_drop 64
  omega

/-- `ACMEclient.get_certicate`, certificate-assembly part: standard base64
of the DER body, wrapped at 64 columns, joined with newlines, framed by the
BEGIN/END markers, then concatenated with the issuer chain exactly as the
constructor fetched it. -/
def get_certicate (der : List Nat) (certificate_chain : String) : String :=
  let certificate :=
    String.intercalate "\n" ((wrap64 (b64encode der)).map String.mk)
  ("-----BEGIN CERTIFICATE-----\n" ++ certificate ++
   "\n-----END CERTIFICATE-----\n") ++ certificate_chain

/-! ## Signed requests (`ACMEclient.make_signed_acme_request`) -/

/-- The protected header of one signed request: `get_acme_header()` plus the
`nonce` taken from the `Replay-Nonce` header of the GET issued immediately
before the POST. -/
structure ProtectedHeader where
  alg : String
  jwk_e : String
  jwk_n : String
  nonce : String
deriving DecidableEq

structure SignedAcmeRequest where
  protectedHeader : ProtectedHeader
  payload : String
deriving DecidableEq

/-- `ACMEclient.make_signed_acme_request`.  `nonces i` is the `Replay-Nonce`
header of the `i`-th nonce GET (`none` when the header is absent, in which
case `response.headers['Replay-Nonce']` raises `KeyError` and no request is
produced).  Each call performs exactly one nonce GET and embeds that nonce
in the protected header of the POST it constructs. -/
def make_signed_acme_request (nonces : Nat → Option String) (jwk_e jwk_n : String)
    (fetchIndex : Nat) (payload : String) : Option SignedAcmeRequest :=
  match nonces fetchIndex with
  | none => none
  | some nval =>
    some { protectedHeader :=
             { alg := "RS256", jwk_e := jwk_e, jwk_n := jwk_n, nonce := nval },
           payload := payload }

/-- A session of consecutive signed POSTs: the `i`-th construction uses the
`i`-th nonce fetch. -/
def sessionPosts (nonces : Nat → Option String) (jwk_e jwk_n : String)
    (payloads : List String) : List (Option SignedAcmeRequest) :=
  (List.range payloads.length).map fun i =>
    make_signed_acme_request nonces jwk_e jwk_n i (payloads.getD i "")

/-! ## Orchestrator (`ACMEclient.just_get_me_a_certificate`) -/

inductive IssueOutcome where
  | unboundChallengeError
  | unboundResponseError
  | certificate
deriving DecidableEq

structure IssuanceTrace where
  registerPosts : Nat
  createCalls : List (String × String)
  notifyCalls : List (String × String)
  pollExit : Option PollExit
  pollGets : Nat
  deleteCalls : List (String × String)
  outcome : IssueOutcome
deriving DecidableEq

/-- `ACMEclient.just_get_me_a_certificate`.  The steps are straight-line:
register when `PRIOR_REGISTERED` is false (the response of `acme_register`
is logged but its status code is never compared against anything);
`get_challenge`; `get_keyauthorization`; `create_dns_record(domain_name,
base64_of_acme_keyauthorization)`; notify; `check_challenge_status`; then
`get_certicate` — unless `check_challenge_status` itself raised
`UnboundLocalError` at its `return` line (transport error on the very first
poll GET), which propagates uncaught and ends the issuance before
`get_certicate` is called.  `register_status` is the status code of the
registration response; it does not influence the control flow because the
source never inspects it. -/
def just_get_me_a_certificate (prior_registered : Bool) (register_status : Nat)
    (sha256 : String → List Nat) (jwk_e jwk_n : String) (domain_name : String)
    (challenges : List ChallengeEntry) (server : Nat → ServerReply) : IssuanceTrace :=
  let _ := register_status
  let registerPosts := if prior_registered then 0 else 1
  match get_challenge challenges with
  | none =>
    { registerPosts := registerPosts, createCalls := [], notifyCalls := [],
      pollExit := none, pollGets := 0, deleteCalls := [],
      outcome := IssueOutcome.unboundChallengeError }
  | some (dns_token, dns_challenge_url) =>
    let ka := get_keyauthorization sha256 jwk_e jwk_n dns_token
    let poll := check_challenge_status server 15 domain_name ka.2
    { registerPosts := registerPosts,
      createCalls := [(domain_name, ka.2)],
      notifyCalls := [(dns_challenge_url, ka.1)],
      pollExit := some poll.exit,
      pollGets := poll.gets,
      deleteCalls := poll.deleteCalls,
      outcome := if poll.raisedUnboundLocal then IssueOutcome.unboundResponseError
                 else IssueOutcome.certificate }

/-! ## Concrete instances used by witnesses and counterexamples -/

/-- A `dns-01` challenge entry. -/
def exampleChallenge : ChallengeEntry :=
  { type_ := "dns-01", token := "tokenA", uri := "uriA", url := "urlA" }

/-- A second `dns-01` challenge entry with different token and URLs. -/
def exampleChallengeB : ChallengeEntry :=
  { type_ := "dns-01", token := "tokenB", uri := "uriB", url := "urlB" }

/-- An `http-01` challenge entry: no `dns-01` entry matches it. -/
def httpChallenge : ChallengeEntry :=
  { type_ := "http-01", token := "tokenH", uri := "uriH", url := "urlH" }

/-- A fixed stand-in for the SHA-256 digest in concrete runs. -/
def constSha : String → List Nat := fun _ => [1, 2, 3]

/-- A server whose every poll GET raises a transport-level exception. -/
def alwaysTransportError : Nat → ServerReply := fun _ => ServerReply.transportError

/-- A server answering `pending` on the first poll GET and raising a
transport-level exception on every later one. -/
def pendingThenTransport : Nat → ServerReply :=
  fun i => if i = 0 then ServerReply.status ("pending") else ServerReply.transportError

/-- A server whose every poll GET reports status `valid`. -/
def alwaysValid : Nat → ServerReply := fun _ => ServerReply.status ("valid")

/-- An authorization response listing only an `http-01` challenge. -/
def httpOnlyResponse : AuthorizationResponse :=
  { identifierValue := "example.com", wildcard := none, challenges := [httpChallenge] }

/-- A nonce oracle issuing pairwise distinct nonces. -/
def sessionNonces : Nat → Option String := fun i => some (if i = 0 then "N0" else "N1")

/-- A wildcard authorization response with one `dns-01` challenge. -/
def wildcardResponse : AuthorizationResponse :=
  { identifierValue := "example.com", wildcard := some true, challenges := [exampleChallenge] }

/-! ## Polling lemmas -/

/-- The polling loop performs at most `maxChecks + 1` GET requests beyond
the `gets0` already counted, for every server behaviour. -/
theorem pollAux_gets_le (server : Nat → ServerReply) :
    ∀ maxChecks gets0 : Nat, (pollAux server maxChecks gets0).2 ≤ gets0 + maxChecks + 1 := by
  intro maxChecks
  induction maxChecks with
  | zero =>
    intro gets0
    rw [pollAux]
    cases server gets0 <;> simp
  | succ r ih =>
    intro gets0
    rw [pollAux]
    cases server gets0 with
    | transportError => simp
    | malformedJson => simp
    | status s =>
      by_cases hv : s = "valid"
      · simp [hv]
      · simp only [hv, if_false]
        have h := ih (gets0 + 1)
        omega

/-- C1: during challenge polling an always-`pending` server does NOT make the
issuance fail after 15 GETs: the loop performs 16 GETs (the check
`number_of_checks > maximum_number_of_checks_allowed` fires only once the
counter has passed 15), the raised `StopIteration` is caught by the loop's
own `except` clause, no delete happens, and the orchestrator still proceeds
to request a certificate. -/
theorem c1_counterexample :
    (check_challenge_status pendingForever 15 "example.com" "value").gets = 16
  ∧ (check_challenge_status pendingForever 15 "example.com" "value").gets ≠ 15
  ∧ (just_get_me_a_certificate false 201 constSha "E" "N" "example.com"
       [exampleChallenge] pendingForever).outcome = IssueOutcome.certificate := by
  exact ⟨by decide, by decide, by decide⟩

/-- C1 (amended): the polling loop always terminates within a bounded number
of iterations — at most `maxChecks + 1` GETs for every server behaviour —
and an always-`pending` server makes it exit through the caught
`StopIteration` after exactly 16 GETs (not 15), with no delete call, the
issuance continuing rather than failing. -/
theorem c1_claim (server : Nat → ServerReply) (maxChecks gets0 : Nat) :
    (pollAux server maxChecks gets0).2 ≤ gets0 + maxChecks + 1
  ∧ pollAux pendingForever 15 0 = (PollExit.exitMaxExceeded, 16)
  ∧ check_challenge_status pendingForever 15 "example.com" "value" =
      { exit := PollExit.exitMaxExceeded, gets := 16, deleteCalls := [],
        raisedUnboundLocal := false } :=
  ⟨pollAux_gets_le server maxChecks gets0, by decide, by decide⟩

/-- C2 counterexample: on the poll-timeout terminal outcome (always-`pending`
server) the provider delete is never invoked — not exactly once. -/
theorem c2_counterexample :
    (just_get_me_a_certificate false 201 constSha "E" "N" "example.com"
       [exampleChallenge] pendingForever).deleteCalls = []
  ∧ (just_get_me_a_certificate false 201 constSha "E" "N" "example.com"
       [exampleChallenge] pendingForever).pollExit = some PollExit.exitMaxExceeded := by
  exact ⟨by decide, by decide⟩

/-- C2 (amended): `delete_dns_record` is invoked only on the `valid` exit of
the polling loop, and then exactly once with the same `(domain, value)` pair
that was passed to `create_dns_record`; on the transport-error,
malformed-response and poll-exhaustion exits no delete happens at all.  The
two closed conjuncts exhibit the `valid` case: one delete, equal to the one
create, carrying the published TXT value. -/
theorem c2_claim (prior : Bool) (rs : Nat) (sha256 : String → List Nat)
    (jwk_e jwk_n domain_name : String) (challenges : List ChallengeEntry)
    (server : Nat → ServerReply) :
    (just_get_me_a_certificate prior rs sha256 jwk_e jwk_n domain_name challenges server).deleteCalls =
      (if (just_get_me_a_certificate prior rs sha256 jwk_e jwk_n domain_name
             challenges server).pollExit = some PollExit.exitValid
       then (just_get_me_a_certificate prior rs sha256 jwk_e jwk_n domain_name
               challenges server).createCalls
       else [])
  ∧ (just_get_me_a_certificate false 201 constSha "E" "N" "example.com"
       [exampleChallenge] alwaysValid).deleteCalls =
      [("example.com", (get_keyauthorization constSha "E" "N" "tokenA").2)]
  ∧ (just_get_me_a_certificate false 201 constSha "E" "N" "example.com"
       [exampleChallenge] alwaysValid).createCalls =
      [("example.com", (get_keyauthorization constSha "E" "N" "tokenA").2)] := by
  refine ⟨?_, by decide, by decide⟩
  unfold just_get_me_a_certificate check_challenge_status
  cases get_challenge challenges with
  | none => simp
  | some p =>
    obtain ⟨tok, uri⟩ := p
    by_cases h : (pollAux server 15 0).1 = PollExit.exitValid <;> simp [h]

/-- C3: the code bug at the failing input "`pending` on the first poll GET,
transport error on the second": the name `check_challenge_status_response`
is already bound by the first successful GET, so the `except` clause breaks
the loop, the stale pending response is returned normally, no `valid` status
was ever seen, no delete happens, and the orchestrator proceeds to request
the certificate — the transport error concludes the polling phase as
success, contradicting the claimed design.  (A transport error on the very
first GET instead crashes the issuance with `UnboundLocalError` at the
`return` line — also not the claimed retry, but not a success either; the
last two conjuncts record that path.) -/
theorem c3_claim :
    (just_get_me_a_certificate false 201 constSha "E" "N" "example.com"
       [exampleChallenge] pendingThenTransport).pollExit = some PollExit.exitTransport
  ∧ (just_get_me_a_certificate false 201 constSha "E" "N" "example.com"
       [exampleChallenge] pendingThenTransport).pollGets = 2
  ∧ (just_get_me_a_certificate false 201 constSha "E" "N" "example.com"
       [exampleChallenge] pendingThenTransport).outcome = IssueOutcome.certificate
  ∧ (just_get_me_a_certificate false 201 constSha "E" "N" "example.com"
       [exampleChallenge] pendingThenTransport).deleteCalls = []
  ∧ (just_get_me_a_certificate false 201 constSha "E" "N" "example.com"
       [exampleChallenge] alwaysTransportError).outcome = IssueOutcome.unboundResponseError
  ∧ (just_get_me_a_certificate false 201 constSha "E" "N" "example.com"
       [exampleChallenge] alwaysTransportError).pollGets = 1 := by
  exact ⟨by decide, by decide, by decide, by decide, by decide, by decide⟩

/-- C8 counterexample: a registration response with status 500 is not fatal —
the register POST happens and the issuance still runs to certificate
retrieval, because the source never inspects the status code. -/
theorem c8_counterexample :
    (just_get_me_a_certificate false 500 constSha "E" "N" "example.com"
       [exampleChallenge] alwaysValid).outcome = IssueOutcome.certificate
  ∧ (just_get_me_a_certificate false 500 constSha "E" "N" "example.com"
       [exampleChallenge] alwaysValid).registerPosts = 1 := by
  exact ⟨by decide, by decide⟩

/-- C8 (amended): the registration step never fails on any status: the
response of `acme_register` is logged and discarded, so the whole issuance
trace is independent of the registration status code — 201, 409 and every
other status are treated alike and issuance continues. -/
theorem c8_claim (prior : Bool) (s1 s2 : Nat) (sha256 : String → List Nat)
    (jwk_e jwk_n domain_name : String) (challenges : List ChallengeEntry)
    (server : Nat → ServerReply) :
    just_get_me_a_certificate prior s1 sha256 jwk_e jwk_n domain_name challenges server =
      just_get_me_a_certificate prior s2 sha256 jwk_e jwk_n domain_name challenges server := rfl

/-! ## Challenge-selection lemmas -/

/-- The assign-without-break loop of `get_challenge` keeps the LAST matching
entry: folding left with keep-on-match equals the last element of the
filtered list (falling back to the accumulator). -/
theorem foldl_keep_last :
    ∀ (l : List ChallengeEntry) (acc : Option ChallengeEntry),
      l.foldl (fun a i => if i.type_ = "dns-01" then some i else a) acc =
        ((l.filter fun i => i.type_ = "dns-01").getLast?).or acc := by
  intro l
  induction l with
  | nil => intro acc; rfl
  | cons x xs ih =>
    intro acc
    rw [List.foldl_cons, ih, List.filter_cons]
    by_cases hp : x.type_ = "dns-01"
    · rw [if_pos hp, if_pos (decide_eq_true hp)]
      cases hxs : xs.filter (fun i => i.type_ = "dns-01") with
      | nil => rfl
      | cons y ys =>
        rw [List.getLast?_cons_cons]
        cases hz : (y :: ys).getLast? with
        | none => exact absurd (List.getLast?_eq_none_iff.mp hz) (by simp)
        | some z => rfl
    · rw [if_neg hp, if_neg (by simp [hp])]

/-- `List.find?` returns the first element satisfying the predicate. -/
theorem find?_first {α : Type} (p : α → Bool) :
    ∀ (l : List α) (k : Nat) (hk : k < l.length),
      p (l.get ⟨k, hk⟩) = true →
      (∀ m (hm : m < k), p (l.get ⟨m, by omega⟩) = false) →
      l.find? p = some (l.get ⟨k, hk⟩) := by
  intro l
  induction l with
  | nil => intro k hk; simp at hk
  | cons x xs ih =>
    intro k hk hp hfirst
    cases k with
    | zero => exact List.find?_cons_of_pos xs hp
    | succ j =>
      have hx : p x = false := hfirst 0 (Nat.succ_pos j)
      rw [List.find?_cons_of_neg xs (by simp [hx])]
      have hk2 : j < xs.length := by
        simp only [List.length_cons] at hk
        omega
      exact ih j hk2 hp (fun m hm => hfirst (m + 1) (by omega))

/-- C4 counterexample: with two `dns-01` entries, `get_challenge` selects the
LAST one (`tokenB`), not the first (`tokenA`): the loop assigns on every
match and never breaks. -/
theorem c4_counterexample :
    get_challenge [exampleChallenge, exampleChallengeB] = some ("tokenB", "uriB")
  ∧ (exampleChallenge.token, exampleChallenge.uri) = ("tokenA", "uriA")
  ∧ exampleChallenge.type_ = "dns-01"
  ∧ some (("tokenB" : String), ("uriB" : String)) ≠
      some (("tokenA" : String), ("uriA" : String)) := by
  exact ⟨by decide, by decide, by decide, by decide⟩

/-- C4 (amended): `ACMEclient.get_challenge` selects the LAST entry of type
`dns-01`; when no entry of that type exists it hits an unbound local
(`NameError`, modelled `none`), the authorization step fails before any DNS
record is created, and the failure is not a `NoMatchingChallenge` error
(which does not exist in the source).  `BaseAuthProvider.get_identifier_auth`
selects the FIRST entry whose type equals its `auth_type`. -/
theorem c4_claim (challenges : List ChallengeEntry) :
    get_challenge challenges =
      ((challenges.filter fun i => i.type_ = "dns-01").getLast?).map (fun c => (c.token, c.uri))
  ∧ ((challenges.filter fun i => i.type_ = "dns-01") = [] →
      ∀ (prior : Bool) (rs : Nat) (sha256 : String → List Nat)
        (jwk_e jwk_n domain_name : String) (server : Nat → ServerReply),
        (just_get_me_a_certificate prior rs sha256 jwk_e jwk_n domain_name
           challenges server).outcome = IssueOutcome.unboundChallengeError
      ∧ (just_get_me_a_certificate prior rs sha256 jwk_e jwk_n domain_name
           challenges server).createCalls = [])
  ∧ (∀ (auth_type : String) (resp : AuthorizationResponse) (url : String) (k : Nat)
        (hk : k < resp.challenges.length),
        (resp.challenges.get ⟨k, hk⟩).type_ = auth_type →
        (∀ m (hm : m < k), ¬ (resp.challenges.get ⟨m, by omega⟩).type_ = auth_type) →
        get_identifier_auth auth_type resp url = some
          { domain := if pyTruthy resp.wildcard then "*." ++ resp.identifierValue
                      else resp.identifierValue,
            url := url, wildcard := resp.wildcard,
            token := (resp.challenges.get ⟨k, hk⟩).token,
            challenge_url := (resp.challenges.get ⟨k, hk⟩).url }) := by
  refine ⟨?_, ?_, ?_⟩
  · unfold get_challenge
    rw [foldl_keep_last]
    cases (challenges.filter fun i => i.type_ = "dns-01").getLast? <;> rfl
  · intro hempty prior rs sha256 jwk_e jwk_n domain_name server
    have hnone : get_challenge challenges = none := by
      unfold get_challenge
      rw [foldl_keep_last, hempty]
      rfl
    unfold just_get_me_a_certificate
    rw [hnone]
    exact ⟨rfl, rfl⟩
  · intro auth_type resp url k hk hp hfirst
    have hfind : resp.challenges.find? (fun i => i.type_ = auth_type) =
        some (resp.challenges.get ⟨k, hk⟩) := by
      refine find?_first _ resp.challenges k hk (decide_eq_true hp) ?_
      intro m hm
      exact decide_eq_false (hfirst m hm)
    unfold get_identifier_auth
    rw [hfind]
    rfl

/-- C4 witness: an authorization listing only `http-01` makes the issuance
fail with the unbound-local error before any DNS record is created. -/
theorem c4_witness :
    (just_get_me_a_certificate false 201 constSha "E" "N" "example.com"
       [httpChallenge] pendingForever).outcome = IssueOutcome.unboundChallengeError :=
  ((c4_claim [httpChallenge]).2.1 (by decide) false 201 constSha "E" "N" "example.com"
     pendingForever).1

/-- C10: `get_identifier_auth` returns `None` (no exception) when no
challenge entry matches `auth_type`, and any returned record's `domain` is
`*.` prepended to the identifier value exactly when the `wildcard` field is
truthy, the bare identifier value otherwise. -/
theorem c10_claim (auth_type : String) (resp : AuthorizationResponse) (url : String) :
    ((∀ c ∈ resp.challenges, ¬ c.type_ = auth_type) →
       get_identifier_auth auth_type resp url = none)
  ∧ (∀ r, get_identifier_auth auth_type resp url = some r →
       r.domain = if pyTruthy resp.wildcard then "*." ++ resp.identifierValue
                  else resp.identifierValue) := by
  constructor
  · intro h
    unfold get_identifier_auth
    rw [List.find?_eq_none.mpr (fun c hc => by simp [h c hc])]
    rfl
  · intro r hr
    unfold get_identifier_auth at hr
    cases hfind : resp.challenges.find? (fun i => i.type_ = auth_type) with
    | none => rw [hfind] at hr; cases hr
    | some c =>
      rw [hfind] at hr
      cases hr
      rfl

/-- C10 witness: an `http-01`-only authorization yields `none` for a
`dns-01` provider, and a truthy wildcard response yields a `*.`-prefixed
domain. -/
theorem c10_witness :
    get_identifier_auth "dns-01" httpOnlyResponse "u" = none
  ∧ ({ domain := "*.example.com", url := "u2", wildcard := some true,
       token := "tokenA", challenge_url := "urlA" } : IdentifierAuth).domain =
      (if pyTruthy wildcardResponse.wildcard then "*." ++ wildcardResponse.identifierValue
       else wildcardResponse.identifierValue) :=
  ⟨(c10_claim "dns-01" httpOnlyResponse "u").1 (by decide),
   (c10_claim "dns-01" wildcardResponse "u2").2
     { domain := "*.example.com", url := "u2", wildcard := some true,
       token := "tokenA", challenge_url := "urlA" } (by decide)⟩

/-! ## Base64 and JSON serialization lemmas -/

/-- Every character produced by the sextet encoder lies in the alphabet. -/
theorem sextetChar_mem (c62 c63 : Char) (n : Nat) :
    sextetChar c62 c63 n ∈ b64Alphabet c62 c63 := by
  unfold sextetChar
  by_cases h : n < (b64Alphabet c62 c63).length
  · rw [List.getD_eq_getElem _ _ h]
    exact List.getElem_mem _
  · rw [List.getD_eq_default _ _ (by omega)]
    simp [b64Alphabet]

/-- Every character of a base64 encoding is an alphabet character or `=`. -/
theorem b64Chunks_mem (c62 c63 : Char) (bs : List Nat) :
    ∀ c ∈ b64Chunks c62 c63 bs, c ∈ b64Alphabet c62 c63 ∨ c = '=' := by
  induction bs using b64Chunks.induct c62 c63 with
  | case1 => intro c hc; simp [b64Chunks] at hc
  | case2 b1 =>
    intro c hc
    simp only [b64Chunks, List.mem_cons] at hc
    rcases hc with h | h | h | h | h
    · exact Or.inl (h ▸ sextetChar_mem c62 c63 _)
    · exact Or.inl (h ▸ sextetChar_mem c62 c63 _)
    · exact Or.inr h
    · exact Or.inr h
    · simp at h
  | case3 b1 b2 =>
    intro c hc
    simp only [b64Chunks, List.mem_cons] at hc
    rcases hc with h | h | h | h | h
    · exact Or.inl (h ▸ sextetChar_mem c62 c63 _)
    · exact Or.inl (h ▸ sextetChar_mem c62 c63 _)
    · exact Or.inl (h ▸ sextetChar_mem c62 c63 _)
    · exact Or.inr h
    · simp at h
  | case4 b1 b2 b3 rest ih =>
    intro c hc
    simp only [b64Chunks, List.mem_cons] at hc
    rcases hc with h | h | h | h | h
    · exact Or.inl (h ▸ sextetChar_mem c62 c63 _)
    · exact Or.inl (h ▸ sextetChar_mem c62 c63 _)
    · exact Or.inl (h ▸ sextetChar_mem c62 c63 _)
    · exact Or.inl (h ▸ sextetChar_mem c62 c63 _)
    · exact ih c h

/-- Stripping a character from the end keeps only characters of the input. -/
theorem rstripChar_subset (c : Char) (l : List Char) : ∀ x ∈ rstripChar c l, x ∈ l := by
  intro x hx
  unfold rstripChar at hx
  rw [List.mem_reverse] at hx
  have hx2 : x ∈ l.reverse := (List.dropWhile_sublist _).subset hx
  exact List.mem_reverse.mp hx2

/-- JSON escaping is the identity on escape-free character lists. -/
theorem escapeChars_id : ∀ (l : List Char), (∀ c ∈ l, jsonEscapeChar c = [c]) → escapeChars l = l := by
  intro l
  induction l with
  | nil => intro _; rfl
  | cons c rest ih =>
    intro h
    simp only [escapeChars]
    rw [h c (by simp), ih (fun x hx => h x (by simp [hx]))]
    rfl

/-- URL-safe base64 alphabet characters need no JSON escaping. -/
theorem jsonEscapeChar_b64 : ∀ c ∈ b64Alphabet '-' '_', jsonEscapeChar c = [c] := by decide

theorem jsonEscapeChar_pad : jsonEscapeChar '=' = ['='] := by decide

/-- The output of `calculate_safe_base64` is JSON-escape-free. -/
theorem safeBase64_escape (bs : List Nat) :
    escapeChars (calculate_safe_base64 bs).data = (calculate_safe_base64 bs).data := by
  apply escapeChars_id
  intro c hc
  have hc3 : c ∈ urlsafe_b64encode bs := rstripChar_subset '=' _ c hc
  rcases b64Chunks_mem '-' '_' bs c hc3 with h | h
  · exact jsonEscapeChar_b64 c h
  · rw [h]
    exact jsonEscapeChar_pad

/-- A JSON string literal of an escape-free string is just the quoted string. -/
theorem jsonStringLit_safe (s : String) (h : escapeChars s.data = s.data) :
    jsonStringLit s = "\"" ++ s ++ "\"" := by
  unfold jsonStringLit
  rw [h]

/-- Merging two adjacent literal pieces of a right-nested concatenation. -/
theorem append_lit (a b c X : String) (h : a ++ b = c) : a ++ (b ++ X) = c ++ X := by
  rw [← String.append_assoc, h]

/-- The canonical JWK JSON of escape-free values `E`, `N` is exactly the
brace-delimited, key-sorted, whitespace-free string of the claim. -/
theorem jwkJson_safe_eq (E N : String) (hE : escapeChars E.data = E.data)
    (hN : escapeChars N.data = N.data) :
    jwkJson E N =
      "\x7b\"e\":\"" ++ (E ++ ("\",\"kty\":\"RSA\",\"n\":\"" ++ (N ++ "\"\x7d"))) := by
  have hsort : sortByKey [("e", E), ("kty", "RSA"), ("n", N)] =
      [("e", E), ("kty", "RSA"), ("n", N)] := by
    simp +decide [sortByKey, insortByKey]
  unfold jwkJson dumpsSortedCompact dumpsStrDict
  rw [hsort]
  simp only [dumpsEntries]
  rw [jsonStringLit_safe E hE, jsonStringLit_safe N hN]
  rw [show jsonStringLit "e" = "\"e\"" from by decide]
  rw [show jsonStringLit "kty" = "\"kty\"" from by decide]
  rw [show jsonStringLit "n" = "\"n\"" from by decide]
  rw [show jsonStringLit "RSA" = "\"RSA\"" from by decide]
  simp only [String.append_assoc]
  rw [show ("\"" : String) ++ "\x7d" = "\"\x7d" from by decide]
  rw [append_lit ":" "\"" ":\"" _ (by decide), append_lit ":" "\"" ":\"" _ (by decide)]
  rw [append_lit "\"e\"" ":\"" "\"e\":\"" _ (by decide)]
  rw [append_lit "\x7b" "\"e\":\"" "\x7b\"e\":\"" _ (by decide)]
  rw [append_lit "\"n\"" ":\"" "\"n\":\"" _ (by decide)]
  rw [append_lit "," "\"n\":\"" ",\"n\":\"" _ (by decide)]
  rw [append_lit "\"RSA\"" ",\"n\":\"" "\"RSA\",\"n\":\"" _ (by decide)]
  rw [append_lit ":" "\"RSA\",\"n\":\"" ":\"RSA\",\"n\":\"" _ (by decide)]
  rw [append_lit "\"kty\"" ":\"RSA\",\"n\":\"" "\"kty\":\"RSA\",\"n\":\"" _ (by decide)]
  rw [append_lit "," "\"kty\":\"RSA\",\"n\":\"" ",\"kty\":\"RSA\",\"n\":\"" _ (by decide)]
  rw [append_lit "\"" ",\"kty\":\"RSA\",\"n\":\"" "\",\"kty\":\"RSA\",\"n\":\"" _ (by decide)]

/-! ## Certificate wrapping lemmas -/

/-- Every 64-column chunk has length at most 64. -/
theorem wrap64_length (l : List Char) : ∀ c ∈ wrap64 l, c.length ≤ 64 := by
  induction l using wrap64.induct with
  | case1 =>
    intro c hc
    simp [wrap64] at hc
  | case2 l h ih =>
    intro c hc
    rw [wrap64, if_neg h] at hc
    rcases List.mem_cons.mp hc with hc | hc
    · rw [hc]
      have := l.length_take 64
      omega
    · exact ih c hc

/-- Flattening the 64-column chunks restores the original text. -/
theorem wrap64_flatten (l : List Char) : (wrap64 l).flatten = l := by
  induction l using wrap64.induct with
  | case1 => simp [wrap64]
  | case2 l h ih =>
    rw [wrap64, if_neg h]
    rw [List.flatten_cons, ih]
    exact List.take_append_drop 64 l

/-- C7: the emitted PEM bundle is the BEGIN/END-framed, newline-joined
64-column wrapping of the standard base64 of the DER body, immediately
followed by the issuer chain byte-for-byte; every body line is at most 64
characters and the lines flatten back to the full base64 text. -/
theorem c7_claim (der : List Nat) (chain : String) :
    (∀ line ∈ (wrap64 (b64encode der)).map String.mk, line.length ≤ 64)
  ∧ (wrap64 (b64encode der)).flatten = b64encode der
  ∧ get_certicate der chain =
      ("-----BEGIN CERTIFICATE-----\n" ++
         String.intercalate "\n" ((wrap64 (b64encode der)).map String.mk) ++
       "\n-----END CERTIFICATE-----\n") ++ chain := by
  refine ⟨?_, wrap64_flatten _, rfl⟩
  intro line hline
  rw [List.mem_map] at hline
  obtain ⟨c, hc, rfl⟩ := hline
  exact wrap64_length (b64encode der) c hc

/-- C7 witness: for the DER body `[1, 2, 3]` the single base64 body line
`AQID` is within the 64-column bound. -/
theorem c7_witness : (("AQID" : String)).length ≤ 64 := by
  refine (c7_claim [1, 2, 3] "CHAIN").1 "AQID" ?_
  have hb : b64encode [1, 2, 3] = ['A', 'Q', 'I', 'D'] := by decide
  rw [hb]
  have h1 : wrap64 ['A', 'Q', 'I', 'D'] = [['A', 'Q', 'I', 'D']] := by
    rw [wrap64, if_neg (by simp)]
    rw [show List.drop 64 ['A', 'Q', 'I', 'D'] = [] from by decide]
    rw [wrap64, if_pos rfl]
    rw [show List.take 64 ['A', 'Q', 'I', 'D'] = ['A', 'Q', 'I', 'D'] from by decide]
  rw [h1]
  decide

/-- C5: for every account key (JWK components `E = b64url(eB)`,
`N = b64url(nB)`) and token: the canonical JWK JSON is exactly the string
`\x7b"e":"<e>","kty":"RSA","n":"<n>"\x7d` with keys sorted and no
whitespace; the key authorization is the token, a dot, and the
base64url-without-padding SHA-256 of that JSON; and the value handed to
`create_dns_record` (the published DNS TXT value) is the
base64url-without-padding SHA-256 of the key authorization, not the key
authorization itself. -/
theorem c5_claim (sha256 : String → List Nat) (eB nB : List Nat)
    (dns_token domain_name : String) :
    jwkJson (calculate_safe_base64 eB) (calculate_safe_base64 nB) =
      "\x7b\"e\":\"" ++ (calculate_safe_base64 eB ++
        ("\",\"kty\":\"RSA\",\"n\":\"" ++ (calculate_safe_base64 nB ++ "\"\x7d")))
  ∧ (get_keyauthorization sha256 (calculate_safe_base64 eB) (calculate_safe_base64 nB)
       dns_token).1 =
      dns_token ++ "." ++ calculate_safe_base64 (sha256
        (jwkJson (calculate_safe_base64 eB) (calculate_safe_base64 nB)))
  ∧ (get_keyauthorization sha256 (calculate_safe_base64 eB) (calculate_safe_base64 nB)
       dns_token).2 =
      calculate_safe_base64 (sha256
        ((get_keyauthorization sha256 (calculate_safe_base64 eB) (calculate_safe_base64 nB)
            dns_token).1))
  ∧ (just_get_me_a_certificate false 201 sha256 (calculate_safe_base64 eB)
       (calculate_safe_base64 nB) domain_name
       [{ type_ := "dns-01", token := dns_token, uri := "u", url := "u" }]
       pendingForever).createCalls =
      [(domain_name,
        (get_keyauthorization sha256 (calculate_safe_base64 eB) (calculate_safe_base64 nB)
           dns_token).2)] := by
  refine ⟨jwkJson_safe_eq _ _ (safeBase64_escape eB) (safeBase64_escape nB), rfl, rfl, ?_⟩
  have hgc : get_challenge [{ type_ := "dns-01", token := dns_token, uri := "u", url := "u" }] =
      some (dns_token, "u") := by
    simp +decide [get_challenge]
  unfold just_get_me_a_certificate
  rw [hgc]

/-- C6: each call of `make_signed_acme_request` performs exactly one nonce
GET, and the `i`-th signed POST of a session embeds exactly the nonce of the
`i`-th fetch (the one issued immediately before that POST) in its protected
header; a missing `Replay-Nonce` header surfaces the `KeyError` instead of
producing a request; and when the server issues pairwise distinct nonces, no
two POSTs of the session carry the same nonce. -/
theorem c6_claim (nonces : Nat → Option String) (jwk_e jwk_n : String)
    (payloads : List String)
    (hFresh : ∀ i, i < payloads.length → ∀ j, j < payloads.length → i ≠ j →
        nonces i ≠ nonces j) :
    (sessionPosts nonces jwk_e jwk_n payloads).length = payloads.length
  ∧ (∀ i, i < payloads.length →
       (sessionPosts nonces jwk_e jwk_n payloads)[i]? =
         some (make_signed_acme_request nonces jwk_e jwk_n i (payloads.getD i "")))
  ∧ (∀ i, i < payloads.length → nonces i = none →
       (sessionPosts nonces jwk_e jwk_n payloads)[i]? = some none)
  ∧ (∀ i, i < payloads.length → ∀ r,
       (sessionPosts nonces jwk_e jwk_n payloads)[i]? = some (some r) →
       nonces i = some r.protectedHeader.nonce)
  ∧ (∀ i, i < payloads.length → ∀ j, j < payloads.length → i ≠ j →
       ∀ ri rj, (sessionPosts nonces jwk_e jwk_n payloads)[i]? = some (some ri) →
         (sessionPosts nonces jwk_e jwk_n payloads)[j]? = some (some rj) →
         ri.protectedHeader.nonce ≠ rj.protectedHeader.nonce) := by
  have hlen : (sessionPosts nonces jwk_e jwk_n payloads).length = payloads.length := by
    simp [sessionPosts]
  have hget : ∀ i, i < payloads.length →
      (sessionPosts nonces jwk_e jwk_n payloads)[i]? =
        some (make_signed_acme_request nonces jwk_e jwk_n i (payloads.getD i "")) := by
    intro i hi
    unfold sessionPosts
    rw [List.getElem?_map, List.getElem?_range hi]
    rfl
  have hnonce : ∀ i, i < payloads.length → ∀ r,
      (sessionPosts nonces jwk_e jwk_n payloads)[i]? = some (some r) →
      nonces i = some r.protectedHeader.nonce := by
    intro i hi r hr
    rw [hget i hi] at hr
    unfold make_signed_acme_request at hr
    cases hn : nonces i with
    | none => rw [hn] at hr; cases hr
    | some v =>
      rw [hn] at hr
      cases hr
      rfl
  refine ⟨hlen, hget, ?_, hnonce, ?_⟩
  · intro i hi hn
    rw [hget i hi]
    unfold make_signed_acme_request
    rw [hn]
  · intro i hi j hj hne ri rj hri hrj
    have h1 := hnonce i hi ri hri
    have h2 := hnonce j hj rj hrj
    intro heq
    exact hFresh i hi j hj hne (by rw [h1, h2, heq])

/-- C6 witness: with a server issuing distinct nonces, a two-POST session
yields exactly two requests. -/
theorem c6_witness :
    (∀ i, i < (["p0", "p1"] : List String).length → ∀ j, j < (["p0", "p1"] : List String).length →
        i ≠ j → sessionNonces i ≠ sessionNonces j)
  ∧ (sessionPosts sessionNonces "E" "N" ["p0", "p1"]).length = 2 :=
  ⟨by decide, (c6_claim sessionNonces "E" "N" ["p0", "p1"] (by decide)).1⟩

/-! ## Hex conversion lemmas -/

theorem hexVal_digitChar : ∀ d, d < 16 → hexVal (Nat.digitChar d) = some d := by decide

/-- `binascii.unhexlify` of an odd-length string raises. -/
theorem unhexlify_odd : ∀ l : List Char, l.length % 2 = 1 → unhexlify l = none := by
  intro l
  induction l using unhexlify.induct with
  | case1 => intro h; simp at h
  | case2 c => intro _; rfl
  | case3 c1 c2 rest a b bs hrest_eq hv2 hv1 ih =>
    intro h
    have hrest : rest.length % 2 = 1 := by
      simp only [List.length_cons] at h
      omega
    exact absurd hrest_eq (by rw [ih hrest]; simp)
  | case4 c1 c2 rest hfail ih =>
    intro h
    rcases hva : hexVal c1 with _ | a <;> rcases hvb : hexVal c2 with _ | b <;>
      rcases hvc : unhexlify rest with _ | bs2 <;>
      simp only [unhexlify, hva, hvb, hvc]
    exact (hfail a b bs2 hva hvb hvc).elim

/-- Appending one hex pair to an even-length hex string appends one byte. -/
theorem unhexlify_append2 :
    ∀ (xs : List Char) (bs : List Nat), unhexlify xs = some bs →
      ∀ (c1 c2 : Char) (h1 h2 : Nat), hexVal c1 = some h1 → hexVal c2 = some h2 →
        unhexlify (xs ++ [c1, c2]) = some (bs ++ [16 * h1 + h2]) := by
  intro xs
  induction xs using unhexlify.induct with
  | case1 =>
    intro bs hbs c1 c2 h1 h2 hv1 hv2
    cases hbs
    simp [unhexlify, hv1, hv2]
  | case2 c =>
    intro bs hbs
    simp [unhexlify] at hbs
  | case3 d1 d2 rest a b bs0 hrest hv2 hv1 ih =>
    intro bs hbs c1 c2 h1 h2 hv1c hv2c
    simp only [unhexlify, hv1, hv2, hrest] at hbs
    cases hbs
    have ihr := ih bs0 hrest c1 c2 h1 h2 hv1c hv2c
    simp only [List.cons_append, List.append_eq, unhexlify, hv1, hv2, ihr]
  | case4 d1 d2 rest hfail ih =>
    intro bs hbs c1 c2 h1 h2 hv1c hv2c
    rcases hva : hexVal d1 with _ | a <;> rcases hvb : hexVal d2 with _ | b <;>
      rcases hvc : unhexlify rest with _ | bs2 <;>
      simp only [unhexlify, hva, hvb, hvc] at hbs
    all_goals try cases hbs
    exact (hfail a b bs2 hva hvb hvc).elim

theorem hexRepr_lt16 (n : Nat) (h : n < 16) : hexRepr n = [Nat.digitChar n] := by
  rw [hexRepr, if_pos h]

theorem hexRepr_ge16 (n : Nat) (h : 16 ≤ n) :
    hexRepr n = hexRepr (n / 16) ++ [Nat.digitChar (n % 16)] := by
  rw [hexRepr]
  rw [if_neg (by omega)]

theorem hexRepr_ge256 (n : Nat) (h : 256 ≤ n) :
    hexRepr n = hexRepr (n / 256) ++ [Nat.digitChar (n / 16 % 16), Nat.digitChar (n % 16)] := by
  have h16 : 16 ≤ n / 16 := by
    rw [Nat.le_div_iff_mul_le (by norm_num)]
    omega
  rw [hexRepr_ge16 n (by omega), hexRepr_ge16 (n / 16) h16]
  rw [Nat.div_div_eq_div_mul]
  norm_num

/-- Cutting off the last two hex digits commutes with the conditional
zero-padding: both sides pad exactly when the short hex is odd. -/
theorem evenHex_ge256 (n : Nat) (h : 256 ≤ n) :
    evenHex n = evenHex (n / 256) ++ [Nat.digitChar (n / 16 % 16), Nat.digitChar (n % 16)] := by
  have hlen : (hexRepr n).length = (hexRepr (n / 256)).length + 2 := by
    rw [hexRepr_ge256 n h]
    simp
  unfold evenHex
  by_cases hp : (hexRepr (n / 256)).length % 2 = 1
  · rw [if_pos (by omega), if_pos hp, hexRepr_ge256 n h]
    rfl
  · rw [if_neg (by omega), if_neg hp, hexRepr_ge256 n h]

/-- The padded exponent hex of the source converts, for every positive
exponent, to exactly the minimal big-endian byte encoding. -/
theorem unhexlify_evenHex : ∀ n : Nat, 0 < n → unhexlify (evenHex n) = some (minBE n) := by
  intro n
  induction n using Nat.strong_induction_on with
  | _ n ih =>
    intro hn
    rcases lt_or_ge n 16 with h16 | h16
    · have he : evenHex n = ['0', Nat.digitChar n] := by
        unfold evenHex
        rw [hexRepr_lt16 n h16]
        rfl
      rw [he]
      simp only [unhexlify, show hexVal '0' = some 0 from by decide, hexVal_digitChar n h16]
      rw [minBE, if_neg (by omega), show n / 256 = 0 from by omega]
      rw [minBE, if_pos rfl]
      simp [Nat.mod_eq_of_lt (show n < 256 by omega)]
    · rcases lt_or_ge n 256 with h256 | h256
      · have hdiv : n / 16 < 16 := by omega
        have hh : hexRepr n = [Nat.digitChar (n / 16), Nat.digitChar (n % 16)] := by
          rw [hexRepr_ge16 n h16, hexRepr_lt16 (n / 16) hdiv]
          rfl
        have he : evenHex n = hexRepr n := by
          unfold evenHex
          rw [hh]
          norm_num
        rw [he, hh]
        simp only [unhexlify, hexVal_digitChar (n / 16) hdiv,
          hexVal_digitChar (n % 16) (by omega)]
        rw [minBE, if_neg (by omega), show n / 256 = 0 from by omega]
        rw [minBE, if_pos rfl]
        simp only [List.nil_append, Option.some.injEq, List.cons.injEq, and_true]
        rw [Nat.mod_eq_of_lt h256]
        omega
      · have h0 : 0 < n / 256 := Nat.div_pos h256 (by norm_num)
        have ihn := ih (n / 256) (Nat.div_lt_self (by omega) (by norm_num)) h0
        rw [evenHex_ge256 n h256]
        rw [unhexlify_append2 _ _ ihn _ _ _ _
          (hexVal_digitChar _ (by omega)) (hexVal_digitChar _ (by omega))]
        conv_rhs => rw [minBE, if_neg (by omega)]
        rw [show 16 * (n / 16 % 16) + n % 16 = n % 256 from by omega]

/-- The unpadded modulus hex converts exactly when its length is even, and
then also to the minimal big-endian byte encoding. -/
theorem unhexlify_hexRepr_even (n : Nat) (h : (hexRepr n).length % 2 = 0) :
    unhexlify (hexRepr n) = some (minBE n) := by
  have hn : 0 < n := by
    rcases Nat.eq_zero_or_pos n with h0 | h0
    · subst h0
      rw [hexRepr_lt16 0 (by norm_num)] at h
      simp at h
    · exact h0
  have hev := unhexlify_evenHex n hn
  simp only [evenHex] at hev
  rw [if_neg (by omega)] at hev
  exact hev

theorem beVal_append (bs : List Nat) (b : Nat) : beVal (bs ++ [b]) = 256 * beVal bs + b := by
  unfold beVal
  rw [List.foldl_append]
  rfl

/-- `minBE` is a faithful big-endian encoding. -/
theorem beVal_minBE : ∀ n : Nat, beVal (minBE n) = n := by
  intro n
  induction n using Nat.strong_induction_on with
  | _ n ih =>
    rcases Nat.eq_zero_or_pos n with h0 | h0
    · subst h0; rw [minBE, if_pos rfl]; rfl
    · rw [minBE, if_neg (by omega), beVal_append,
        ih (n / 256) (Nat.div_lt_self h0 (by norm_num))]
      omega

theorem minBE_ne_nil (n : Nat) (h : 0 < n) : minBE n ≠ [] := by
  rw [minBE, if_neg (by omega)]
  simp

/-- `minBE` is minimal: its leading byte is never a zero sign byte. -/
theorem minBE_head_pos : ∀ n : Nat, 0 < n → ∀ d, (minBE n).head? = some d → 0 < d := by
  intro n
  induction n using Nat.strong_induction_on with
  | _ n ih =>
    intro hn d hd
    rcases lt_or_ge n 256 with h256 | h256
    · rw [minBE, if_neg (by omega), show n / 256 = 0 from by omega] at hd
      rw [minBE, if_pos rfl] at hd
      simp at hd
      omega
    · rw [minBE, if_neg (by omega)] at hd
      have h0 : 0 < n / 256 := Nat.div_pos h256 (by norm_num)
      rw [List.head?_append] at hd
      cases hh : (minBE (n / 256)).head? with
      | none =>
        exact absurd (List.head?_eq_none_iff.mp hh) (minBE_ne_nil _ h0)
      | some x =>
        rw [hh] at hd
        simp at hd
        subst hd
        exact ih (n / 256) (Nat.div_lt_self (by omega) (by norm_num)) h0 x hh

theorem get_acme_header_some (e n : Nat) (eb nb : List Nat)
    (he : unhexlify (evenHex e) = some eb) (hn : unhexlify (hexRepr n) = some nb) :
    get_acme_header e n = some (calculate_safe_base64 eb, calculate_safe_base64 nb) := by
  unfold get_acme_header
  rw [he, hn]

theorem get_acme_header_none_modulus (e n : Nat) (h : unhexlify (hexRepr n) = none) :
    get_acme_header e n = none := by
  unfold get_acme_header
  rw [h]
  cases unhexlify (evenHex e) <;> rfl

/-- C9 counterexample: the source pads only the exponent hex; the modulus
hex of 256 is `100` (odd length), so `binascii.unhexlify` raises and the
conversion fails — not "succeeds for every key". -/
theorem c9_counterexample :
    get_acme_header 65537 256 = none
  ∧ (hexRepr 256).length % 2 = 1 := by
  have h2 : hexRepr 256 = ['1', '0', '0'] := by
    simp +decide [hexRepr]
  constructor
  · apply get_acme_header_none_modulus
    rw [h2]
    decide
  · rw [h2]
    decide

/-- C9 (amended): the exponent hex is left-padded to an even length, so its
conversion succeeds for every positive exponent and yields exactly the
minimal big-endian encoding (correct value, no leading zero byte); the
modulus hex is NOT padded, so its conversion succeeds exactly when the
modulus hex representation has even length — in which case it also yields
the minimal big-endian encoding — and raises when the length is odd. -/
theorem c9_claim (e n : Nat) (he : 0 < e) :
    unhexlify (evenHex e) = some (minBE e)
  ∧ beVal (minBE e) = e
  ∧ beVal (minBE n) = n
  ∧ (∀ d, (minBE e).head? = some d → 0 < d)
  ∧ ((hexRepr n).length % 2 = 0 →
       get_acme_header e n =
         some (calculate_safe_base64 (minBE e), calculate_safe_base64 (minBE n)))
  ∧ ((hexRepr n).length % 2 = 1 → get_acme_header e n = none) := by
  refine ⟨unhexlify_evenHex e he, beVal_minBE e, beVal_minBE n,
    minBE_head_pos e he, ?_, ?_⟩
  · intro hev
    exact get_acme_header_some e n _ _ (unhexlify_evenHex e he) (unhexlify_hexRepr_even n hev)
  · intro hodd
    exact get_acme_header_none_modulus e n (unhexlify_odd _ hodd)

/-- C9 witness: for the standard exponent 65537 and an even-hex modulus 4096
the conversions both succeed with the minimal big-endian encodings. -/
theorem c9_witness :
    0 < 65537
  ∧ unhexlify (evenHex 65537) = some (minBE 65537)
  ∧ get_acme_header 65537 4096 =
      some (calculate_safe_base64 (minBE 65537), calculate_safe_base64 (minBE 4096)) := by
  refine ⟨by decide, (c9_claim 65537 4096 (by decide)).1, ?_⟩
  refine (c9_claim 65537 4096 (by decide)).2.2.2.2.1 ?_
  have h : hexRepr 4096 = ['1', '0', '0', '0'] := by
    simp +decide [hexRepr]
  rw [h]
  decide
